import Mathlib

/-
  Verification development for the jupyterlab-diff synchronization engine.

  The TypeScript sources are embedded shallowly:
  * text documents are `List Char` (`Text`);
  * a `Chunk` is the `{fromA, toA, fromB, toB}` record produced by the
    external diff primitive (`getChunks` of the merge library);
  * the library operations `acceptChunk` / `rejectChunk` are modelled at the
    level of their documented effect: `acceptChunk` copies the working slice
    `[fromB,toB)` over the original document at `[fromA,toA)`,
    `rejectChunk` copies the original slice `[fromA,toA)` over the working
    document at `[fromB,toB)`;
  * the state of `BaseUnifiedDiffManager` / `UnifiedCellDiffManager`
    (base-unified-diff.ts, cell.ts) is `UnifiedState`: the captured
    `_originalSource`, the cell shared-model source (equal to the editor
    document in the unified view), the merge view's internal original
    document, the current chunk set, whether the unified diff extension is
    installed (so that `getChunks` returns a non-null result), the disposed
    flag and a counter of `deactivate()` runs.
-/

namespace JlabDiff

abbrev Text := List Char

/-- A change region between two documents, as produced by the external diff
primitive: half-open range `[fromA,toA)` in the original document and
`[fromB,toB)` in the working document. -/
structure Chunk where
  fromA : Nat
  toA : Nat
  fromB : Nat
  toB : Nat
deriving DecidableEq, Repr

/-- Replace the range `[f,t)` of `l` by `ins`. -/
def splice (l : Text) (f t : Nat) (ins : Text) : Text :=
  l.take f ++ ins ++ l.drop t

/-- The slice `[f,t)` of `l`. -/
def slice (l : Text) (f t : Nat) : Text :=
  (l.drop f).take (t - f)

/-- State of a unified diff manager (`BaseUnifiedDiffManager` together with
the `UnifiedCellDiffManager` fields from cell.ts). -/
structure UnifiedState where
  originalSource : Text
  cellSource : Text
  origDoc : Text
  chunks : List Chunk
  diffActive : Bool
  isDisposed : Bool
  deactivateCount : Nat
deriving DecidableEq, Repr

/-- `UnifiedCellDiffManager.hasPendingChanges`:
`this._originalSource !== this._cell.sharedModel.getSource()`. -/
def hasPendingChanges (s : UnifiedState) : Bool :=
  decide (s.originalSource ≠ s.cellSource)

/-- `BaseUnifiedDiffManager.deactivate`: removes the toolbar buttons and
reconfigures the diff compartment to `[]`, so the unified merge state is
gone (`getChunks` returns null afterwards). -/
def deactivate (s : UnifiedState) : UnifiedState :=
  { s with diffActive := false, chunks := [],
           deactivateCount := s.deactivateCount + 1 }

/-- `BaseUnifiedDiffManager.dispose`: returns immediately when already
disposed, otherwise sets the flag and deactivates. -/
def dispose (s : UnifiedState) : UnifiedState :=
  if s.isDisposed then s else deactivate { s with isDisposed := true }

/-- Effect of the merge library's `acceptChunk` on the internal original
document: the working slice `[fromB,toB)` replaces the original slice
`[fromA,toA)`. The working document itself is not touched. -/
def acceptChunkDoc (working orig : Text) (c : Chunk) : Text :=
  splice orig c.fromA c.toA (slice working c.fromB c.toB)

/-- `BaseUnifiedDiffManager.acceptAll`: when the unified diff state is
present, accept every chunk iterating backwards, then deactivate. Neither
`_originalSource` nor the cell source is written. -/
def acceptAll (s : UnifiedState) : UnifiedState :=
  if s.diffActive then
    deactivate
      { s with origDoc :=
          s.chunks.foldr (fun c o => acceptChunkDoc s.cellSource o c) s.origDoc }
  else s

/-- The backwards `rejectChunk` loop of `BaseUnifiedDiffManager.rejectAll`:
`List.foldr` applies the last chunk first, exactly like the
`for (let i = chunks.length - 1; i >= 0; i--)` loop. -/
def rejectLoop (orig : Text) (chunks : List Chunk) (doc : Text) : Text :=
  chunks.foldr (fun c w => splice w c.fromB c.toB (slice orig c.fromA c.toA)) doc

/-- `BaseUnifiedDiffManager.rejectAll`: when the unified diff state is
present, reject every chunk iterating backwards (each `rejectChunk` writes
the original slice over the working document, which is the cell source in
the unified view), then deactivate. -/
def rejectAll (s : UnifiedState) : UnifiedState :=
  if s.diffActive then
    deactivate { s with cellSource := rejectLoop s.origDoc s.chunks s.cellSource }
  else s

/-- The string identity key of a chunk, as built in the split widget:
the template string of `fromA` and `toA` joined by a dash. -/
def chunkKey (c : Chunk) : String :=
  toString c.fromA ++ "-" ++ toString c.toA

/-- Modelled from the spec: the chunk-level revert operation of a unified
diff session. Its implementation lives in `applyDiff` (src/diff/utils.ts),
which is not among the provided sources; per spec 4.2 it copies the
baseline slice `[fromA,toA)` into the working text at `[fromB,toB)` when
the chunk is currently present, and is a silent no-op otherwise. After
`deactivate` the merge state is gone (`getChunks` returns null), so the
operation finds nothing to do. -/
def revertChunk (s : UnifiedState) (key : String) : UnifiedState :=
  if s.diffActive then
    match s.chunks.find? (fun c => decide (chunkKey c = key)) with
    | some c =>
        { s with cellSource :=
            splice s.cellSource c.fromB c.toB (slice s.origDoc c.fromA c.toA) }
    | none => s
  else s

/-- The notebook-level aggregation from index.ts (`updateFloatingPanel`):
`managers.some(m => m.hasPendingChanges())`. -/
def hasAnyPending (g : List UnifiedState) : Bool :=
  g.any (fun m => hasPendingChanges m)

/-- The Accept All button of the floating panel:
`getNotebookManagers(notebookId).forEach(m => m.acceptAll())`. -/
def acceptAllInGroup (g : List UnifiedState) : List UnifiedState :=
  g.map acceptAll

/-- The Reject All button of the floating panel:
`getNotebookManagers(notebookId).forEach(m => m.rejectAll())`. -/
def rejectAllInGroup (g : List UnifiedState) : List UnifiedState :=
  g.map rejectAll

/-- A session whose cell source differs from the captured original source:
original `"a"`, working `"b"`, one full-range chunk, diff active. -/
def pendingCellState : UnifiedState :=
  { originalSource := ['a'], cellSource := ['b'], origDoc := ['a'],
    chunks := [⟨0, 1, 0, 1⟩], diffActive := true, isDisposed := false,
    deactivateCount := 0 }

/-- A session with no pending changes: original and working are both `"c"`. -/
def cleanCellState : UnifiedState :=
  { originalSource := ['c'], cellSource := ['c'], origDoc := ['c'],
    chunks := [], diffActive := true, isDisposed := false,
    deactivateCount := 0 }

/-- C1: the claim says `hasPendingChanges()` is false after `acceptAll()`.
On the code it is not: `acceptAll` only rewrites the merge view's internal
original document via `acceptChunk` and then deactivates; it never updates
`_originalSource` and never writes the cell source, so
`hasPendingChanges()` — which compares exactly those two — still returns
true for the session with original `"a"` and working `"b"`. -/
theorem acceptAll_leaves_hasPendingChanges_true :
    hasPendingChanges pendingCellState = true ∧
    hasPendingChanges (acceptAll pendingCellState) = true := by
  decide

/-- C3: `hasAnyPending` is indeed the `some`-fold (logical OR) of
`hasPendingChanges`, and for a group of one pending and one clean session
it returns true; but after `acceptAllInGroup` it still returns true on the
code (the claim says false), because `acceptAll` leaves both sides of the
`hasPendingChanges` comparison untouched. -/
theorem acceptAllInGroup_leaves_hasAnyPending_true :
    hasAnyPending [pendingCellState, cleanCellState] = true ∧
    hasAnyPending (acceptAllInGroup [pendingCellState, cleanCellState]) = true := by
  decide

/-- C10: `dispose` is idempotent — a second call returns immediately, so
`dispose ∘ dispose = dispose`, the disposed flag ends up true, and
`deactivate` has run exactly once more than before when the manager was not
yet disposed (and zero times more when it was). -/
theorem dispose_idempotent (s : UnifiedState) :
    dispose (dispose s) = dispose s ∧
    (dispose s).isDisposed = true ∧
    (dispose s).deactivateCount =
      s.deactivateCount + (if s.isDisposed then 0 else 1) := by
  by_cases h : s.isDisposed <;>
    simp [dispose, deactivate, h]

/-- C8: once a session is disposed, `acceptAll`, `rejectAll`, the
chunk-level revert and `dispose` itself are all no-ops: disposal
deactivates the diff, so `getChunks` yields nothing and every operation
returns without touching the working text or the baseline. -/
theorem disposed_ops_are_noops (s : UnifiedState) (key : String)
    (h : s.isDisposed = false) :
    acceptAll (dispose s) = dispose s ∧
    rejectAll (dispose s) = dispose s ∧
    revertChunk (dispose s) key = dispose s ∧
    dispose (dispose s) = dispose s ∧
    (dispose s).cellSource = s.cellSource ∧
    (dispose s).originalSource = s.originalSource := by
  simp [dispose, h, deactivate, acceptAll, rejectAll, revertChunk]

/-- C8 witness: the disposed-session guarantees instantiated on the
concrete pending session and the key of its only chunk. -/
theorem disposed_ops_are_noops_witness :
    acceptAll (dispose pendingCellState) = dispose pendingCellState ∧
    rejectAll (dispose pendingCellState) = dispose pendingCellState ∧
    revertChunk (dispose pendingCellState) "0-1" = dispose pendingCellState ∧
    dispose (dispose pendingCellState) = dispose pendingCellState ∧
    (dispose pendingCellState).cellSource = pendingCellState.cellSource ∧
    (dispose pendingCellState).originalSource = pendingCellState.originalSource :=
  disposed_ops_are_noops pendingCellState "0-1" rfl

/-- One segment of the alternating decomposition that the external diff
primitive induces on a pair of documents: a common part followed by a
differing region (`aPart` in the original, `bPart` in the working copy).
A chunk set is valid for `(a, b)` exactly when it arises from such a
decomposition: outside the chunks the two documents agree. -/
structure Seg where
  common : Text
  aPart : Text
  bPart : Text
deriving DecidableEq, Repr

/-- The original document described by a decomposition. -/
def textA : List Seg → Text → Text
  | [], tail => tail
  | seg :: rest, tail => seg.common ++ seg.aPart ++ textA rest tail

/-- The working document described by a decomposition. -/
def textB : List Seg → Text → Text
  | [], tail => tail
  | seg :: rest, tail => seg.common ++ seg.bPart ++ textB rest tail

/-- The chunk set of a decomposition, with ranges expressed from the given
offsets into the two documents. -/
def chunksFrom (offA offB : Nat) : List Seg → List Chunk
  | [] => []
  | seg :: rest =>
      let fa := offA + seg.common.length
      let fb := offB + seg.common.length
      ⟨fa, fa + seg.aPart.length, fb, fb + seg.bPart.length⟩ ::
        chunksFrom (fa + seg.aPart.length) (fb + seg.bPart.length) rest

lemma take_len_append (p q : Text) : (p ++ q).take p.length = p := by
  simp

lemma drop_len_append (p q : Text) : (p ++ q).drop p.length = q := by
  simp

lemma slice_mid (p q r : Text) :
    slice ((p ++ q) ++ r) p.length (p.length + q.length) = q := by
  unfold slice
  rw [List.append_assoc, drop_len_append, Nat.add_sub_cancel_left]
  exact take_len_append q r

lemma splice_mid (p q r ins : Text) :
    splice ((p ++ q) ++ r) p.length (p.length + q.length) ins
      = p ++ ins ++ r := by
  unfold splice
  have h1 : ((p ++ q) ++ r).take p.length = p := by
    rw [List.append_assoc]; exact take_len_append p (q ++ r)
  have h2 : ((p ++ q) ++ r).drop (p.length + q.length) = r := by
    rw [show p.length + q.length = (p ++ q).length by simp]
    exact drop_len_append (p ++ q) r
  rw [h1, h2]

lemma rejectLoop_cons (orig : Text) (c : Chunk) (cs : List Chunk) (doc : Text) :
    rejectLoop orig (c :: cs) doc
      = splice (rejectLoop orig cs doc) c.fromB c.toB
          (slice orig c.fromA c.toA) := rfl

lemma chunksFrom_cons (offA offB : Nat) (seg : Seg) (rest : List Seg) :
    chunksFrom offA offB (seg :: rest)
      = ⟨offA + seg.common.length,
         offA + seg.common.length + seg.aPart.length,
         offB + seg.common.length,
         offB + seg.common.length + seg.bPart.length⟩ ::
        chunksFrom (offA + seg.common.length + seg.aPart.length)
          (offB + seg.common.length + seg.bPart.length) rest := rfl

/-- Rejecting every chunk of a valid decomposition, last chunk first,
restores the original document — stated with explicit prefixes so that the
chunk offsets stay in step with the induction. -/
lemma rejectLoop_restores (segs : List Seg) :
    ∀ (preA preB tail : Text),
      rejectLoop (preA ++ textA segs tail)
        (chunksFrom preA.length preB.length segs)
        (preB ++ textB segs tail)
      = preB ++ textA segs tail := by
  induction segs with
  | nil =>
      intro preA preB tail
      simp [textA, textB, chunksFrom, rejectLoop]
  | cons seg rest ih =>
      intro preA preB tail
      have hA : preA ++ textA (seg :: rest) tail
          = ((preA ++ seg.common) ++ seg.aPart) ++ textA rest tail := by
        simp [textA]
      have hB : preB ++ textB (seg :: rest) tail
          = ((preB ++ seg.common) ++ seg.bPart) ++ textB rest tail := by
        simp [textB]
      have hinner : rejectLoop (preA ++ textA (seg :: rest) tail)
          (chunksFrom (preA.length + seg.common.length + seg.aPart.length)
            (preB.length + seg.common.length + seg.bPart.length) rest)
          (preB ++ textB (seg :: rest) tail)
          = ((preB ++ seg.common) ++ seg.bPart) ++ textA rest tail := by
        have h1 := ih ((preA ++ seg.common) ++ seg.aPart)
          ((preB ++ seg.common) ++ seg.bPart) tail
        rw [show ((preA ++ seg.common) ++ seg.aPart).length
              = preA.length + seg.common.length + seg.aPart.length by
            simp [Nat.add_assoc],
            show ((preB ++ seg.common) ++ seg.bPart).length
              = preB.length + seg.common.length + seg.bPart.length by
            simp [Nat.add_assoc]]
          at h1
        rw [hA, hB]
        exact h1
      have hslice : slice (preA ++ textA (seg :: rest) tail)
          (preA.length + seg.common.length)
          (preA.length + seg.common.length + seg.aPart.length)
          = seg.aPart := by
        rw [hA]
        have h2 := slice_mid (preA ++ seg.common) seg.aPart (textA rest tail)
        rw [show (preA ++ seg.common).length
              = preA.length + seg.common.length by simp] at h2
        exact h2
      rw [chunksFrom_cons, rejectLoop_cons]
      dsimp only
      rw [hinner, hslice]
      have h3 := splice_mid (preB ++ seg.common) seg.bPart (textA rest tail)
        seg.aPart
      rw [show (preB ++ seg.common).length
            = preB.length + seg.common.length by simp] at h3
      rw [h3]
      simp [textA]

/-- The state of the split file widget (file.ts): the captured original and
modified code, the document shared model source and the merge view. -/
structure Sel where
  anchor : Nat
  head : Nat
deriving DecidableEq, Repr

/-- The right (editable) pane of the split file merge view: document,
selection and scroll offsets. -/
structure EditorPane where
  doc : Text
  sel : Sel
  scrollTop : Nat
  scrollLeft : Nat
deriving DecidableEq, Repr

/-- A side-by-side merge view: read-only left document and editable right
pane. -/
structure MV where
  aDoc : Text
  b : EditorPane
deriving DecidableEq, Repr

/-- `CodeMirrorSplitFileWidget` state: `_originalCode`, `_modifiedCode`,
the file shared-model source, and `_mergeView` (null when destroyed). -/
structure FileWidget where
  originalCode : Text
  modifiedCode : Text
  sharedSource : Text
  mergeView : Option MV
deriving DecidableEq, Repr

/-- Dispatching a selection on an editor fails (CodeMirror raises a
RangeError) when a selection endpoint exceeds the document length. -/
def dispatchSelection (p : EditorPane) (sel : Sel) : Except Unit EditorPane :=
  if sel.anchor ≤ p.doc.length ∧ sel.head ≤ p.doc.length then
    Except.ok { p with sel := sel }
  else
    Except.error ()

/-- `CodeMirrorSplitFileWidget._rebuildMergeViewPreserveState`: read the
current left and right texts and the right pane's selection and scroll
offsets, destroy and recreate the merge view from those texts, then
restore the selection inside a try/catch whose failure is swallowed, and
restore the scroll offsets. -/
def rebuildMergeViewPreserveState (w : FileWidget) : FileWidget :=
  match w.mergeView with
  | none => w
  | some mv =>
      let leftText := mv.aDoc
      let rightText := mv.b.doc
      let rightSelection := mv.b.sel
      let rightScrollTop := mv.b.scrollTop
      let rightScrollLeft := mv.b.scrollLeft
      let newB0 : EditorPane :=
        { doc := rightText, sel := ⟨0, 0⟩, scrollTop := 0, scrollLeft := 0 }
      let newB1 :=
        match dispatchSelection newB0 rightSelection with
        | Except.ok p => p
        | Except.error _ => newB0
      let newB2 :=
        { newB1 with scrollTop := rightScrollTop,
                     scrollLeft := rightScrollLeft }
      { w with originalCode := leftText, modifiedCode := rightText,
               mergeView := some { aDoc := leftText, b := newB2 } }

/-- CodeMirror position mapping through a replacement of `[f,t)` by a text
of length `insLen`: positions at or before `f` are fixed, positions at or
after `t` are shifted, positions inside the replaced range collapse to
`f`. -/
def mapPos (f t insLen p : Nat) : Nat :=
  if p ≤ f then p else if t ≤ p then p - t + f + insLen else f

/-- Dispatching a document change on a pane: the document is spliced and
the selection is mapped through the change. -/
def paneReplace (p : EditorPane) (f t : Nat) (ins : Text) : EditorPane :=
  { doc := splice p.doc f t ins,
    sel := ⟨mapPos f t ins.length p.sel.anchor,
            mapPos f t ins.length p.sel.head⟩,
    scrollTop := p.scrollTop, scrollLeft := p.scrollLeft }

/-- `CodeMirrorSplitFileWidget.dispose` via `_destroySplitView`: the
pending rebuild timer is cleared and the merge view destroyed. -/
def widgetDispose (w : FileWidget) : FileWidget :=
  { w with mergeView := none }

/-- The Reject All toolbar button of the split file widget: replace the
whole right document by the left text, write the left text to the shared
model, force an immediate rebuild, then dispose the widget. -/
def fileRejectAllClick (w : FileWidget) : FileWidget :=
  match w.mergeView with
  | none => w
  | some mv =>
      let leftText := mv.aDoc
      let mv1 : MV := { mv with b := paneReplace mv.b 0 mv.b.doc.length leftText }
      let w1 : FileWidget :=
        { w with mergeView := some mv1, sharedSource := leftText }
      widgetDispose (rebuildMergeViewPreserveState w1)

/-- C2: after reject-all the working text equals the baseline,
byte-for-byte. For the unified manager: whenever the current chunk set is
the diff of the merge view's original document against the cell source
(i.e. it comes from an alternating decomposition, the contract of the
external primitive), the backwards `rejectChunk` loop of `rejectAll`
rewrites the cell source into exactly the original document. For the split
file widget, the Reject All button writes the left text over the whole
right document and into the shared model. -/
theorem rejectAll_restores_baseline (s : UnifiedState) (segs : List Seg)
    (tail : Text)
    (hact : s.diffActive = true)
    (ho : s.origDoc = textA segs tail)
    (hc : s.cellSource = textB segs tail)
    (hk : s.chunks = chunksFrom 0 0 segs)
    (oc mc ss : Text) (mv : MV) :
    (rejectAll s).cellSource = s.origDoc ∧
    (fileRejectAllClick ⟨oc, mc, ss, some mv⟩).sharedSource = mv.aDoc := by
  constructor
  · have h0 := rejectLoop_restores segs [] [] tail
    simp only [List.nil_append, List.length_nil] at h0
    simp only [rejectAll, hact, if_true, deactivate]
    rw [ho, hc, hk]
    exact h0
  · rfl

/-- C2 witness: baseline `"abc"`, working `"axc"`, the single middle chunk;
`rejectAll` restores `"abc"`, and the file widget's Reject All propagates
the left text to the shared model. -/
theorem rejectAll_restores_baseline_witness :
    (rejectAll
      { originalSource := ['a', 'b', 'c'], cellSource := ['a', 'x', 'c'],
        origDoc := ['a', 'b', 'c'], chunks := [⟨1, 2, 1, 2⟩],
        diffActive := true, isDisposed := false,
        deactivateCount := 0 }).cellSource
      = ['a', 'b', 'c'] ∧
    (fileRejectAllClick
      ⟨['q'], ['r'], ['r'],
        some { aDoc := ['q'],
               b := { doc := ['r'], sel := ⟨0, 0⟩, scrollTop := 3,
                      scrollLeft := 0 } }⟩).sharedSource
      = ['q'] :=
  rejectAll_restores_baseline
    { originalSource := ['a', 'b', 'c'], cellSource := ['a', 'x', 'c'],
      origDoc := ['a', 'b', 'c'], chunks := [⟨1, 2, 1, 2⟩],
      diffActive := true, isDisposed := false, deactivateCount := 0 }
    [⟨['a'], ['b'], ['x']⟩] ['c'] rfl rfl rfl rfl
    ['q'] ['r'] ['r']
    { aDoc := ['q'],
      b := { doc := ['r'], sel := ⟨0, 0⟩, scrollTop := 3, scrollLeft := 0 } }

/-- Scheduler state of `CodeMirrorSplitFileWidget`: the pool of live
`setTimeout` timers (id and fire time) for the rebuild callback, the next
timer id the host hands out, the stored `_rebuildTimeout` id, the right
pane's working text, and the rebuild bookkeeping (count, time and the text
the rebuild observed). -/
structure SchedState where
  timers : List (Nat × Nat)
  nextId : Nat
  rebuildTimeout : Option Nat
  working : Text
  rebuildCount : Nat
  lastRebuildTime : Option Nat
  lastRebuildText : Text
deriving DecidableEq, Repr

/-- The `if (this._rebuildTimeout) window.clearTimeout(this._rebuildTimeout)`
prologue shared by both scheduling paths: the stored timer, if any, is
removed from the live timer pool. -/
def clearStoredTimer (s : SchedState) : SchedState :=
  match s.rebuildTimeout with
  | some id => { s with timers := s.timers.filter (fun p => decide (p.1 ≠ id)) }
  | none => s

/-- A run of `_rebuildMergeViewPreserveState` at time `t`: it reads the
working text as it is at that moment (never a stale snapshot). -/
def doRebuild (s : SchedState) (t : Nat) : SchedState :=
  { s with rebuildCount := s.rebuildCount + 1,
           lastRebuildTime := some t,
           lastRebuildText := s.working }

/-- `_scheduleRebuildDebounced` at time `t`: clear any stored timer, then
set a fresh timer `_rebuildDelay = 300` ms out and store its id. -/
def scheduleRebuildDebounced (s : SchedState) (t : Nat) : SchedState :=
  let s1 := clearStoredTimer s
  { s1 with timers := s1.timers ++ [(s1.nextId, t + 300)],
            rebuildTimeout := some s1.nextId,
            nextId := s1.nextId + 1 }

/-- `_scheduleRebuildImmediate` at time `t`: clear any stored timer, null
the stored id and rebuild synchronously. -/
def scheduleRebuildImmediate (s : SchedState) (t : Nat) : SchedState :=
  let s1 := clearStoredTimer s
  doRebuild { s1 with rebuildTimeout := none } t

/-- The host fires timer `id` at its scheduled time `t`: if it is still
live, it is consumed and its callback runs — the callback nulls
`_rebuildTimeout` and rebuilds. A cleared timer never fires. -/
def fireTimer (s : SchedState) (id : Nat) (t : Nat) : SchedState :=
  if (id, t) ∈ s.timers then
    doRebuild
      { s with timers := s.timers.filter (fun p => decide (p.1 ≠ id)),
               rebuildTimeout := none } t
  else s

/-- The right pane's update listener on a document change at time `t`: the
new text is written through (to the shared model, externally) and a
debounced rebuild is scheduled. -/
def onEdit (s : SchedState) (t : Nat) (txt : Text) : SchedState :=
  scheduleRebuildDebounced { s with working := txt } t

/-- Let the clock advance to time `t`: every live timer due by then fires. -/
def advanceTo (s : SchedState) (t : Nat) : SchedState :=
  (s.timers.filter (fun p => decide (p.2 ≤ t))).foldl
    (fun acc p => fireTimer acc p.1 p.2) s

/-- Process a timed list of edit events: before each edit the clock
advances to its time, then the edit fires. -/
def runEdits (s : SchedState) : List (Nat × Text) → SchedState
  | [] => s
  | (t, txt) :: rest => runEdits (onEdit (advanceTo s t) t txt) rest

/-- Let every remaining timer fire. -/
def flushTimers (s : SchedState) : SchedState :=
  s.timers.foldl (fun acc p => fireTimer acc p.1 p.2) s

/-- The widget's initial scheduler state: no timers, no stored id, no
rebuild yet; host timer ids start at 1 (JS timeout ids are nonzero). -/
def initSched (w : Text) : SchedState :=
  { timers := [], nextId := 1, rebuildTimeout := none, working := w,
    rebuildCount := 0, lastRebuildTime := none, lastRebuildText := [] }

/-- A burst: each event is no earlier than the previous one and strictly
less than the 300 ms quiet period after it. -/
def burstGaps : Nat → List (Nat × Text) → Bool
  | _, [] => true
  | tprev, (t, _) :: rest =>
      decide (tprev ≤ t) && decide (t < tprev + 300) && burstGaps t rest

/-- The last event of a nonempty burst, given its head. -/
def lastPair (p : Nat × Text) : List (Nat × Text) → Nat × Text
  | [] => p
  | q :: r => lastPair q r

lemma runEdits_single_timer :
    ∀ (rest : List (Nat × Text)) (t : Nat) (txt : Text) (n cnt : Nat)
      (lt : Option Nat) (ltx : Text),
      burstGaps t rest = true →
      runEdits
        { timers := [(n, t + 300)], nextId := n + 1,
          rebuildTimeout := some n, working := txt, rebuildCount := cnt,
          lastRebuildTime := lt, lastRebuildText := ltx } rest
      = { timers := [(n + rest.length, (lastPair (t, txt) rest).1 + 300)],
          nextId := n + rest.length + 1,
          rebuildTimeout := some (n + rest.length),
          working := (lastPair (t, txt) rest).2,
          rebuildCount := cnt, lastRebuildTime := lt,
          lastRebuildText := ltx } := by
  intro rest
  induction rest with
  | nil =>
      intro t txt n cnt lt ltx _
      simp [runEdits, lastPair]
  | cons e rest2 ih =>
      intro t txt n cnt lt ltx h
      obtain ⟨t2, txt2⟩ := e
      simp only [burstGaps, Bool.and_eq_true, decide_eq_true_eq] at h
      obtain ⟨⟨hle, hlt⟩, hrest⟩ := h
      have hnotdue : decide (t + 300 ≤ t2) = false := by
        simp [Nat.not_le.mpr hlt]
      have hadv : advanceTo
          { timers := [(n, t + 300)], nextId := n + 1,
            rebuildTimeout := some n, working := txt, rebuildCount := cnt,
            lastRebuildTime := lt, lastRebuildText := ltx } t2
          = { timers := [(n, t + 300)], nextId := n + 1,
              rebuildTimeout := some n, working := txt, rebuildCount := cnt,
              lastRebuildTime := lt, lastRebuildText := ltx } := by
        simp [advanceTo, List.filter, hnotdue]
      have hedit : onEdit
          { timers := [(n, t + 300)], nextId := n + 1,
            rebuildTimeout := some n, working := txt, rebuildCount := cnt,
            lastRebuildTime := lt, lastRebuildText := ltx } t2 txt2
          = { timers := [(n + 1, t2 + 300)], nextId := n + 2,
              rebuildTimeout := some (n + 1), working := txt2,
              rebuildCount := cnt, lastRebuildTime := lt,
              lastRebuildText := ltx } := by
        simp [onEdit, scheduleRebuildDebounced, clearStoredTimer, List.filter]
      rw [runEdits, hadv, hedit, ih t2 txt2 (n + 1) cnt lt ltx hrest]
      simp only [lastPair, List.length_cons]
      rw [show n + 1 + rest2.length = n + (rest2.length + 1) from by omega]

/-- C4: a burst of edits each less than the 300 ms quiet period apart
yields exactly one rebuild; it runs 300 ms after the last edit (hence
strictly after every edit of the burst) and observes the text of the last
edit, because the rebuild callback reads the working text at the moment it
runs. -/
theorem debounced_rebuild_coalesces (w0 txt0 : Text) (t0 : Nat)
    (rest : List (Nat × Text))
    (h : burstGaps t0 rest = true) :
    (flushTimers (runEdits (initSched w0) ((t0, txt0) :: rest))).rebuildCount
        = 1 ∧
    (flushTimers
        (runEdits (initSched w0) ((t0, txt0) :: rest))).lastRebuildTime
        = some ((lastPair (t0, txt0) rest).1 + 300) ∧
    (flushTimers
        (runEdits (initSched w0) ((t0, txt0) :: rest))).lastRebuildText
        = (lastPair (t0, txt0) rest).2 ∧
    (lastPair (t0, txt0) rest).1 < (lastPair (t0, txt0) rest).1 + 300 := by
  have hfirst : runEdits (initSched w0) ((t0, txt0) :: rest)
      = runEdits
          { timers := [(1, t0 + 300)], nextId := 2,
            rebuildTimeout := some 1, working := txt0, rebuildCount := 0,
            lastRebuildTime := none, lastRebuildText := [] } rest := by
    rw [runEdits]
    congr 1
  rw [hfirst, runEdits_single_timer rest t0 txt0 1 0 none [] h]
  simp [flushTimers, fireTimer, doRebuild, List.filter]

/-- C4 witness: three edits 10 ms apart starting at time 0; exactly one
rebuild, at time 320, observing the final text `"abc"`. -/
theorem debounced_rebuild_coalesces_witness :
    (flushTimers (runEdits (initSched ['a'])
        ((0, ['a']) :: [(10, ['a', 'b']), (20, ['a', 'b', 'c'])]))).rebuildCount
        = 1 ∧
    (flushTimers (runEdits (initSched ['a'])
        ((0, ['a']) :: [(10, ['a', 'b']), (20, ['a', 'b', 'c'])]))).lastRebuildTime
        = some ((lastPair (0, ['a'])
            [(10, ['a', 'b']), (20, ['a', 'b', 'c'])]).1 + 300) ∧
    (flushTimers (runEdits (initSched ['a'])
        ((0, ['a']) :: [(10, ['a', 'b']), (20, ['a', 'b', 'c'])]))).lastRebuildText
        = (lastPair (0, ['a']) [(10, ['a', 'b']), (20, ['a', 'b', 'c'])]).2 ∧
    (lastPair (0, ['a']) [(10, ['a', 'b']), (20, ['a', 'b', 'c'])]).1
        < (lastPair (0, ['a']) [(10, ['a', 'b']), (20, ['a', 'b', 'c'])]).1
            + 300 :=
  debounced_rebuild_coalesces ['a'] ['a'] 0
    [(10, ['a', 'b']), (20, ['a', 'b', 'c'])] rfl

/-- At most one rebuild timer is live, its id is the stored
`_rebuildTimeout`, and stored ids are always stale-free (below the next id
the host will hand out). -/
def TimerInv (s : SchedState) : Prop :=
  (s.rebuildTimeout = none ∧ s.timers = []) ∨
  (∃ id ft, s.rebuildTimeout = some id ∧ s.timers = [(id, ft)] ∧
    id < s.nextId)

/-- C5: forcing an immediate rebuild cancels the pending debounce timer —
afterwards no timer is live, so a later fire of any timer id is a no-op
and the previously scheduled rebuild never runs — while the immediate
rebuild itself runs exactly once; and scheduling a new debounced rebuild
cancels the previous timer, so at most one timer is ever pending. All the
scheduler operations preserve that single-timer invariant. -/
theorem immediate_cancels_pending (s : SchedState) (t id2 t2 : Nat)
    (hinv : TimerInv s) :
    (scheduleRebuildImmediate s t).timers = [] ∧
    (scheduleRebuildImmediate s t).rebuildCount = s.rebuildCount + 1 ∧
    fireTimer (scheduleRebuildImmediate s t) id2 t2
        = scheduleRebuildImmediate s t ∧
    (scheduleRebuildDebounced s t).timers.length ≤ 1 ∧
    TimerInv (scheduleRebuildDebounced s t) ∧
    TimerInv (scheduleRebuildImmediate s t) ∧
    TimerInv (fireTimer s id2 t2) := by
  rcases hinv with ⟨h1, h2⟩ | ⟨id, ft, h1, h2, h3⟩
  · refine ⟨?_, ?_, ?_, ?_, ?_, ?_, ?_⟩
    · simp [scheduleRebuildImmediate, clearStoredTimer, doRebuild, h1, h2]
    · simp [scheduleRebuildImmediate, clearStoredTimer, doRebuild, h1]
    · simp [fireTimer, scheduleRebuildImmediate, clearStoredTimer, doRebuild,
        h1, h2]
    · simp [scheduleRebuildDebounced, clearStoredTimer, h1, h2]
    · right
      refine ⟨s.nextId, t + 300, ?_, ?_, ?_⟩ <;>
        simp [scheduleRebuildDebounced, clearStoredTimer, h1, h2]
    · left
      constructor <;>
        simp [scheduleRebuildImmediate, clearStoredTimer, doRebuild, h1, h2]
    · simp [fireTimer, h2]
      left
      exact ⟨h1, h2⟩
  · have hclear : clearStoredTimer s
        = { s with timers := [] } := by
      simp [clearStoredTimer, h1, h2, List.filter]
    refine ⟨?_, ?_, ?_, ?_, ?_, ?_, ?_⟩
    · simp [scheduleRebuildImmediate, hclear, doRebuild]
    · simp [scheduleRebuildImmediate, hclear, doRebuild]
    · simp [fireTimer, scheduleRebuildImmediate, hclear, doRebuild]
    · simp [scheduleRebuildDebounced, hclear]
    · right
      refine ⟨s.nextId, t + 300, ?_, ?_, ?_⟩ <;>
        simp [scheduleRebuildDebounced, hclear]
    · left
      constructor <;> simp [scheduleRebuildImmediate, hclear, doRebuild]
    · by_cases hmem : (id2, t2) ∈ s.timers
      · rw [h2] at hmem
        simp only [List.mem_singleton, Prod.mk.injEq] at hmem
        obtain ⟨hid, ht⟩ := hmem
        subst hid; subst ht
        left
        constructor <;> simp [fireTimer, doRebuild, h2, List.filter]
      · simp only [fireTimer, if_neg hmem]
        right
        exact ⟨id, ft, h1, h2, h3⟩

/-- A scheduler state holding exactly one pending timer (id 1, due at time
300), whose id is stored in `_rebuildTimeout`. -/
def timerPendingState : SchedState :=
  { timers := [(1, 300)], nextId := 2, rebuildTimeout := some 1,
    working := ['a'], rebuildCount := 0, lastRebuildTime := none,
    lastRebuildText := [] }

/-- C5 witness: the cancellation guarantees instantiated on a state holding
one pending timer (id 1, due at 300) with stored id 1. -/
theorem immediate_cancels_pending_witness :
    (scheduleRebuildImmediate timerPendingState 40).timers = [] ∧
    (scheduleRebuildImmediate timerPendingState 40).rebuildCount
      = timerPendingState.rebuildCount + 1 ∧
    fireTimer (scheduleRebuildImmediate timerPendingState 40) 1 300
      = scheduleRebuildImmediate timerPendingState 40 ∧
    (scheduleRebuildDebounced timerPendingState 40).timers.length ≤ 1 ∧
    TimerInv (scheduleRebuildDebounced timerPendingState 40) ∧
    TimerInv (scheduleRebuildImmediate timerPendingState 40) ∧
    TimerInv (fireTimer timerPendingState 1 300) :=
  immediate_cancels_pending timerPendingState 40 1 300
    (Or.inr ⟨1, 300, rfl, rfl, Nat.one_lt_two⟩)

/-- State of `CodeMirrorSplitDiffWidget` (the split cell widget): the two
pane documents, the chunk set of the current documents as `getChunks`
reports it, and the `_activeChunks` identity set (a JS `Set` iterated in
insertion order, modelled as a duplicate-free list). -/
structure SplitState where
  aDoc : Text
  bDoc : Text
  chunks : List Chunk
  activeChunks : List String
deriving DecidableEq, Repr

/-- The first `forEach` of `_renderMergeButtons`: every chunk key missing
from `_activeChunks` is added (a JS `Set` appends new elements at the
end). -/
def addMissing (active : List String) (chunks : List Chunk) : List String :=
  chunks.foldl
    (fun acc c => if chunkKey c ∈ acc then acc else acc ++ [chunkKey c])
    active

/-- The reconciliation performed by `_renderMergeButtons`: add the keys of
the fresh chunks, then delete every key that is not among them. -/
def reconcile (active : List String) (chunks : List Chunk) : List String :=
  (addMissing active chunks).filter
    (fun id => decide (id ∈ chunks.map chunkKey))

/-- `_renderMergeButtons` against a fresh `getChunks` result: the chunk set
is replaced and `_activeChunks` reconciled by the `(fromA, toA)` key
rule. -/
def renderMergeButtons (s : SplitState) (fresh : List Chunk) : SplitState :=
  { s with chunks := fresh, activeChunks := reconcile s.activeChunks fresh }

lemma mem_addMissing_of_mem (a : String) (chunks : List Chunk) :
    ∀ active : List String, a ∈ active → a ∈ addMissing active chunks := by
  induction chunks with
  | nil => intro active h; exact h
  | cons c cs ih =>
      intro active h
      rw [addMissing, List.foldl_cons]
      by_cases hc : chunkKey c ∈ active
      · rw [if_pos hc]
        exact ih active h
      · rw [if_neg hc]
        exact ih (active ++ [chunkKey c]) (List.mem_append_left _ h)

lemma mem_addMissing_of_key (a : String) (chunks : List Chunk) :
    ∀ active : List String, a ∈ chunks.map chunkKey →
      a ∈ addMissing active chunks := by
  induction chunks with
  | nil => intro active h; simp at h
  | cons c cs ih =>
      intro active h
      rw [List.map_cons, List.mem_cons] at h
      rw [addMissing, List.foldl_cons]
      rcases h with h | h
      · subst h
        by_cases hc : chunkKey c ∈ active
        · rw [if_pos hc]
          exact mem_addMissing_of_mem (chunkKey c) cs active hc
        · rw [if_neg hc]
          exact mem_addMissing_of_mem (chunkKey c) cs (active ++ [chunkKey c])
            (List.mem_append_right _ (List.mem_singleton.mpr rfl))
      · by_cases hc : chunkKey c ∈ active
        · rw [if_pos hc]; exact ih active h
        · rw [if_neg hc]; exact ih (active ++ [chunkKey c]) h

/-- C7: after a recompute, the `_activeChunks` identity set is exactly the
set of `(fromA, toA)` keys of the fresh chunk set — keys that survived are
exactly those whose baseline-side range reappears, keys that disappeared
are deleted, and new keys are added. -/
theorem activeChunks_eq_fresh_keys (s : SplitState) (fresh : List Chunk)
    (id : String) :
    id ∈ (renderMergeButtons s fresh).activeChunks ↔
      id ∈ fresh.map chunkKey := by
  show id ∈ reconcile s.activeChunks fresh ↔ id ∈ fresh.map chunkKey
  rw [reconcile, List.mem_filter]
  constructor
  · rintro ⟨-, h⟩
    simpa using h
  · intro h
    exact ⟨mem_addMissing_of_key id fresh s.activeChunks h, by simpa using h⟩

/-- Dispatching a document change on the editable pane: CodeMirror raises a
RangeError when the change range is invalid for the current document
(`fromB > toB` or `toB` beyond the end); otherwise the range is spliced. -/
def dispatchChanges (doc : Text) (f t : Nat) (ins : Text) :
    Except String Text :=
  if f ≤ t ∧ t ≤ doc.length then Except.ok (splice doc f t ins)
  else Except.error "RangeError"

/-- The arrow button handler of `_renderMergeButtons`: using the
coordinates captured when the button was rendered, copy the baseline slice
`[fromA,toA)` over the working range `[fromB,toB)`, delete the captured
key from `_activeChunks`, and re-render against the fresh `getChunks`
result (the re-render also runs through the pane's update listener; the
net effect on `_activeChunks` is the same reconciliation). There is no
check that the captured chunk still exists. -/
def arrowRevert (s : SplitState) (c : Chunk) (fresh : List Chunk) :
    Except String SplitState :=
  match dispatchChanges s.bDoc c.fromB c.toB (slice s.aDoc c.fromA c.toA) with
  | Except.error e => Except.error e
  | Except.ok newB =>
      Except.ok (renderMergeButtons
        { s with bDoc := newB,
                 activeChunks :=
                   s.activeChunks.filter (fun i => decide (i ≠ chunkKey c)) }
        fresh)

/-- A split widget state whose two documents agree (`"ab"` on both sides),
so its current chunk set is empty and every chunk reference is stale. -/
def staleSplitState : SplitState :=
  { aDoc := ['a', 'b'], bDoc := ['a', 'b'], chunks := [], activeChunks := [] }

/-- A stale chunk whose recorded working range is still within bounds. -/
def staleChunk : Chunk := ⟨0, 2, 0, 1⟩

/-- A stale chunk whose recorded working range is out of bounds. -/
def staleChunkOOB : Chunk := ⟨0, 1, 0, 5⟩

/-- C6 counterexample: a revert invocation whose chunk is absent from the
current ChunkSet is not a silent no-op. With in-bounds captured
coordinates it succeeds but rewrites the working text (`"ab"` becomes
`"abb"`), and with an out-of-bounds captured range the dispatch raises a
RangeError instead of doing nothing. -/
theorem arrowRevert_stale_not_noop :
    staleChunk ∉ staleSplitState.chunks ∧
    arrowRevert staleSplitState staleChunk []
      = Except.ok
          { aDoc := ['a', 'b'], bDoc := ['a', 'b', 'b'], chunks := [],
            activeChunks := [] } ∧
    (['a', 'b', 'b'] : Text) ≠ staleSplitState.bDoc ∧
    staleChunkOOB ∉ staleSplitState.chunks ∧
    arrowRevert staleSplitState staleChunkOOB []
      = Except.error "RangeError" := by
  refine ⟨by decide, rfl, by decide, by decide, rfl⟩

/-- C6 amended: a revert invocation naming a chunk that is no longer in
the current ChunkSet is not guarded by membership — the captured
coordinates are applied unconditionally: when the captured working range
is within bounds the splice is performed (the working text changes), and
when it is out of bounds the dispatch raises a RangeError. -/
theorem arrowRevert_stale_applies_captured_range (s : SplitState)
    (c : Chunk) (fresh : List Chunk) (hstale : c ∉ s.chunks) :
    (c.fromB ≤ c.toB ∧ c.toB ≤ s.bDoc.length →
      arrowRevert s c fresh
        = Except.ok (renderMergeButtons
            { s with
                bDoc := splice s.bDoc c.fromB c.toB
                  (slice s.aDoc c.fromA c.toA),
                activeChunks := s.activeChunks.filter
                  (fun i => decide (i ≠ chunkKey c)) }
            fresh)) ∧
    (¬(c.fromB ≤ c.toB ∧ c.toB ≤ s.bDoc.length) →
      arrowRevert s c fresh = Except.error "RangeError") := by
  constructor <;> intro h <;> simp [arrowRevert, dispatchChanges, h]

/-- C6 amended witness: the amended characterization instantiated at the
stale in-bounds chunk of the concrete split state. -/
theorem arrowRevert_stale_applies_captured_range_witness :
    (staleChunk.fromB ≤ staleChunk.toB ∧
        staleChunk.toB ≤ staleSplitState.bDoc.length →
      arrowRevert staleSplitState staleChunk []
        = Except.ok (renderMergeButtons
            { staleSplitState with
                bDoc := splice staleSplitState.bDoc staleChunk.fromB
                  staleChunk.toB
                  (slice staleSplitState.aDoc staleChunk.fromA staleChunk.toA),
                activeChunks := staleSplitState.activeChunks.filter
                  (fun i => decide (i ≠ chunkKey staleChunk)) }
            [])) ∧
    (¬(staleChunk.fromB ≤ staleChunk.toB ∧
        staleChunk.toB ≤ staleSplitState.bDoc.length) →
      arrowRevert staleSplitState staleChunk [] = Except.error "RangeError") :=
  arrowRevert_stale_applies_captured_range staleSplitState staleChunk []
    (by decide)

/-- C9: a rebuild recreates the merge view from the current left and right
texts and restores the right pane's state best-effort: the document is the
one read at rebuild time, both scroll offsets are restored exactly, and
the selection is restored when it is still valid for the document and
silently replaced by the default selection when the restore dispatch
fails — the failure is caught inside the rebuild and never escapes (the
function is total and always produces a rebuilt widget). -/
theorem rebuild_preserves_editor_state (oc mc ss : Text) (mv : MV) :
    ∃ mv2 : MV,
      (rebuildMergeViewPreserveState ⟨oc, mc, ss, some mv⟩).mergeView
          = some mv2 ∧
      mv2.aDoc = mv.aDoc ∧
      mv2.b.doc = mv.b.doc ∧
      mv2.b.scrollTop = mv.b.scrollTop ∧
      mv2.b.scrollLeft = mv.b.scrollLeft ∧
      mv2.b.sel
          = (if mv.b.sel.anchor ≤ mv.b.doc.length ∧
                mv.b.sel.head ≤ mv.b.doc.length
             then mv.b.sel else ⟨0, 0⟩) := by
  by_cases h : mv.b.sel.anchor ≤ mv.b.doc.length ∧
      mv.b.sel.head ≤ mv.b.doc.length
  · refine ⟨{ aDoc := mv.aDoc,
              b := { doc := mv.b.doc, sel := mv.b.sel,
                     scrollTop := mv.b.scrollTop,
                     scrollLeft := mv.b.scrollLeft } }, ?_, rfl, rfl, rfl, rfl,
            ?_⟩
    · simp [rebuildMergeViewPreserveState, dispatchSelection, h]
    · rw [if_pos h]
  · refine ⟨{ aDoc := mv.aDoc,
              b := { doc := mv.b.doc, sel := ⟨0, 0⟩,
                     scrollTop := mv.b.scrollTop,
                     scrollLeft := mv.b.scrollLeft } }, ?_, rfl, rfl, rfl, rfl,
            ?_⟩
    · simp [rebuildMergeViewPreserveState, dispatchSelection, h]
    · rw [if_neg h]

end JlabDiff
